import Mathlib

/-!
Schema registry (`main.go`): a shallow embedding

Go strings are byte sequences, so a string is a `List UInt8`; `len`, slicing
and `strings.LastIndex` all count bytes.  The Datastore service, the JSON
decoder, the template engine and the HTTP response writer are collaborators of
`main.go`; each is modelled by its documented behaviour and the handlers are
transcribed statement by statement on top of them.
-/

namespace SchemaRegistry

/-! ## Strings -/

/-- A Go `string`: an immutable sequence of bytes. -/
abbrev Bytes := List UInt8

/-- The bytes (UTF-8) of a string literal. -/
def bytes (s : String) : Bytes := s.data.flatMap String.utf8EncodeChar

/-- Go `s[i:i+len(sep)] == sep`, false when the slice would run past the end. -/
def matchAt (s sep : Bytes) (i : Nat) : Bool :=
  decide (i + sep.length ≤ s.length) && (s.drop i).take sep.length == sep

/-- The right-to-left scan of `strings.LastIndex`, starting at candidate `i`. -/
def lastIndexFrom (s sep : Bytes) : Nat → Int
  | 0 => if matchAt s sep 0 then 0 else -1
  | i + 1 => if matchAt s sep (i + 1) then ((i + 1 : Nat) : Int) else lastIndexFrom s sep i

/-- Go `strings.LastIndex(s, substr)`: the byte index of the last instance of
`substr` in `s`, or `-1` when there is none. -/
def LastIndex (s substr : Bytes) : Int :=
  if substr.length = 0 then (s.length : Int)
  else if s.length < substr.length then -1
  else lastIndexFrom s substr (s.length - substr.length)

/-- The literal `".json"`. -/
def dotJson : Bytes := bytes ".json"

/-- Transcription of `removeDotJson`:
`if idx := strings.LastIndex(ceType, ".json"); idx > 0 { ceType = ceType[0:idx] }`. -/
def removeDotJson (ceType : Bytes) : Bytes :=
  let idx := LastIndex ceType dotJson
  if idx > 0 then ceType.take idx.toNat else ceType

/-! ## Specification vocabulary for substring occurrences -/

/-- The substring `sep` occurs in `s` starting at byte index `i`. -/
def OccursAt (sep s : Bytes) (i : Nat) : Prop :=
  ∃ pre post : Bytes, s = pre ++ sep ++ post ∧ pre.length = i

/-- Index `i` is where the last occurrence of `sep` in `s` starts. -/
def LastOccursAt (sep s : Bytes) (i : Nat) : Prop :=
  OccursAt sep s i ∧ ∀ j, OccursAt sep s j → j ≤ i

/-! ## Data model (`Publish`, `EventSchema`) -/

/-- The JSON API for publishing a schema (`type Publish struct`).  The Go field
`Type` is spelled `Type_` because `Type` is reserved. -/
structure Publish where
  Type_ : Bytes
  Source : Bytes
  Schema : Bytes
deriving DecidableEq, Repr

/-- The Go struct `EventSchema`.  `CreatedAt` is a timestamp, `K` the
`*datastore.Key` (`none` is the nil pointer), a key being its numeric id. -/
structure EventSchema where
  CreatedAt : Nat
  Type_ : Bytes
  Source : Bytes
  Schema : Bytes
  Public : Bool
  K : Option Nat
deriving DecidableEq, Repr

/-- An entity of kind `schema` as the Datastore holds it: its key and the
properties named by the struct tags `createdat`, `cetype`, `cesource`,
`schema`, `public`. -/
structure Entity where
  key : Nat
  createdat : Nat
  cetype : Bytes
  cesource : Bytes
  schema : Bytes
  public : Bool
deriving DecidableEq, Repr

/-- Loading an entity into an `EventSchema`: each tagged property goes to its
field and the `__key__` field receives the entity key. -/
def load (e : Entity) : EventSchema :=
  { CreatedAt := e.createdat, Type_ := e.cetype, Source := e.cesource,
    Schema := e.schema, Public := e.public, K := some e.key }

/-- Saving an `EventSchema` under key `id`: the `__key__` field is not a property. -/
def save (id : Nat) (s : EventSchema) : Entity :=
  { key := id, createdat := s.CreatedAt, cetype := s.Type_, cesource := s.Source,
    schema := s.Schema, public := s.Public }

/-! ## The Datastore service -/

/-- Byte-wise lexicographic order on strings (the Datastore order on string
property values). -/
def bytesLe : Bytes → Bytes → Bool
  | [], _ => true
  | _ :: _, [] => false
  | a :: as, b :: bs =>
    if a.toNat < b.toNat then true
    else if b.toNat < a.toNat then false
    else bytesLe as bs

/-- Go `utf8.ValidString`, as a scan that remembers how many continuation
bytes are due and the range allowed for the next one (the ranges exclude
over-long forms, surrogates and code points above U+10FFFF). -/
def validUTF8From : Nat → Nat → Nat → Bytes → Bool
  | 0, _, _, [] => true
  | _ + 1, _, _, [] => false
  | 0, _, _, b :: rest =>
    let c := b.toNat
    if c < 0x80 then validUTF8From 0 0x80 0xBF rest
    else if 0xC2 ≤ c ∧ c ≤ 0xDF then validUTF8From 1 0x80 0xBF rest
    else if c = 0xE0 then validUTF8From 2 0xA0 0xBF rest
    else if c = 0xED then validUTF8From 2 0x80 0x9F rest
    else if 0xE1 ≤ c ∧ c ≤ 0xEF then validUTF8From 2 0x80 0xBF rest
    else if c = 0xF0 then validUTF8From 3 0x90 0xBF rest
    else if c = 0xF4 then validUTF8From 3 0x80 0x8F rest
    else if 0xF1 ≤ c ∧ c ≤ 0xF3 then validUTF8From 3 0x80 0xBF rest
    else false
  | n + 1, lo, hi, b :: rest =>
    if lo ≤ b.toNat ∧ b.toNat ≤ hi then validUTF8From n 0x80 0xBF rest else false

/-- Go `utf8.ValidString(v)`. -/
def validUTF8 (v : Bytes) : Bool := validUTF8From 0 0x80 0xBF v

/-- The Datastore client accepts `v` as an indexed string value (a filter value
or an indexed property): at most 1500 bytes of valid UTF-8.  Otherwise the call
returns an error before anything is sent. -/
def indexable (v : Bytes) : Bool := decide (v.length ≤ 1500) && validUTF8 v

/-- Entities compared by key. -/
def keyLe (a b : Entity) : Prop := a.key ≤ b.key

instance : DecidableRel keyLe := fun a b => inferInstanceAs (Decidable (a.key ≤ b.key))

/-- Entities compared by the `cetype` property. -/
def typeLe (a b : Entity) : Prop := bytesLe a.cetype b.cetype = true

instance : DecidableRel typeLe :=
  fun a b => inferInstanceAs (Decidable (bytesLe a.cetype b.cetype = true))

/-- A query on kind `schema`, as built by
`datastore.NewQuery("schema")` followed by `.Filter("cetype = ", v)`,
`.Order("cetype")` and `.Limit(n)`. -/
structure Query where
  filterCetype : Option Bytes
  orderCetype : Bool
  limit : Option Nat
deriving DecidableEq, Repr

/-- The query of `getSchemaHandler` and `downloadSchemaHandler`:
`NewQuery("schema").Filter("cetype = ", ceType).Limit(1)`. -/
def lookupQuery (ceType : Bytes) : Query :=
  { filterCetype := some ceType, orderCetype := false, limit := some 1 }

/-- The query of `indexHandler`: `NewQuery("schema").Order("cetype")`. -/
def indexQuery : Query :=
  { filterCetype := none, orderCetype := true, limit := none }

/-- What the Datastore answers to a query: the entities passing the equality
filter, in key order, re-ordered by `cetype` (ties stay in key order) when the
query asks for it, cut at the limit. -/
def runQuery (q : Query) (ents : List Entity) : List Entity :=
  let byKey := ents.insertionSort keyLe
  let matching :=
    match q.filterCetype with
    | some v => byKey.filter (fun e => e.cetype == v)
    | none => byKey
  let ordered := if q.orderCetype then matching.insertionSort typeLe else matching
  match q.limit with
  | some n => ordered.take n
  | none => ordered

/-- The Datastore `Put` of an entity under a key: it replaces any entity with
that key. -/
def putEntity (e : Entity) (ents : List Entity) : List Entity :=
  ents.filter (fun x => x.key != e.key) ++ [e]

/-- A call on the Datastore client, in the order the handler makes them. -/
inductive StoreOp where
  | newClient
  | put (s : EventSchema)
  | getAll (q : Query)
  | close
deriving DecidableEq, Repr

/-! ## The template engine and the response writer -/

/-- A value stored in the template context `map[string]interface{}`. -/
inductive Value where
  | schema (s : EventSchema)
  | schemas (l : List EventSchema)
deriving DecidableEq, Repr

/-- The template context `m`. -/
abbrev Context := List (Bytes × Value)

/-- What `template.ParseFiles` followed by `Execute` does: the file fails to
parse (the template is nil), or execution writes `out` and reports whether it
returned an error. -/
inductive RenderOutcome where
  | parseFailed
  | executed (out : Bytes) (err : Bool)
deriving DecidableEq, Repr

/-- The `http.ResponseWriter`: the status is `none` until the header is
written; `header` holds the entries the handler adds. -/
structure ResponseWriter where
  status : Option Nat
  header : List (Bytes × Bytes)
  body : Bytes
deriving DecidableEq, Repr

/-- A fresh response writer. -/
def ResponseWriter.fresh : ResponseWriter := { status := none, header := [], body := [] }

/-- `w.WriteHeader(code)`: only the first call fixes the status. -/
def ResponseWriter.WriteHeader (w : ResponseWriter) (code : Nat) : ResponseWriter :=
  if w.status.isSome then w else { w with status := some code }

/-- `w.Write(b)`: writes the header with 200 if it is not written yet, then appends. -/
def ResponseWriter.Write (w : ResponseWriter) (b : Bytes) : ResponseWriter :=
  let w1 := w.WriteHeader 200
  { w1 with body := w1.body ++ b }

/-- `w.Header().Add(k, v)`: has no effect on the response once the header is written. -/
def ResponseWriter.HeaderAdd (w : ResponseWriter) (k v : Bytes) : ResponseWriter :=
  if w.status.isSome then w else { w with header := w.header ++ [(k, v)] }

/-! ## The environment of a request and the outcome of a handler -/

/-- Everything outside `main.go` that a request depends on. -/
structure Backend where
  /-- The error of `datastore.NewClient`, if any. -/
  newClientErr : Option Bytes
  /-- The error the service answers to a `client.GetAll` the client sends, if any. -/
  getAllErr : Option Bytes
  /-- The error the service answers to a `client.Put` the client sends, if any. -/
  putErr : Option Bytes
  /-- The id the service gives to the next incomplete key. -/
  allocID : Nat
  /-- The value of `time.Now()`. -/
  now : Nat
  /-- The entities of kind `schema`. -/
  entities : List Entity
  /-- The template files under `koPath`. -/
  templates : Bytes → Context → RenderOutcome
  /-- The `cetype` of a stored entity is an indexed string value. -/
  stored : ∀ e ∈ entities, indexable e.cetype = true

/-- The error of `client.GetAll(ctx, q, &schemas)`: a filter value that is not
an indexed string value is refused by the client, else the service answers. -/
def queryError (b : Backend) (q : Query) : Option Bytes :=
  match q.filterCetype with
  | some v => if indexable v then b.getAllErr else some (bytes "bad query filter value")
  | none => b.getAllErr

/-- The error of `client.Put(ctx, key, entity)`: the indexed properties
`cetype` and `cesource` must be indexed string values and the unindexed
`schema` valid UTF-8, else the client refuses; otherwise the service answers. -/
def putError (b : Backend) (s : EventSchema) : Option Bytes :=
  if indexable s.Type_ && indexable s.Source && validUTF8 s.Schema then b.putErr
  else some (bytes "bad property value")

/-- How the handler call ends: it returns, `log.Fatalf` exits the process, or
it panics. -/
inductive Exit where
  | returned
  | fatal
  | panicked
deriving DecidableEq, Repr

/-- The state threaded through a handler and what it leaves behind. -/
structure Result where
  w : ResponseWriter
  entities : List Entity
  ops : List StoreOp
  rendered : List (Bytes × Context)
  exit : Exit
deriving DecidableEq, Repr

/-- The state at handler entry. -/
def Result.start (b : Backend) : Result :=
  { w := ResponseWriter.fresh, entities := b.entities, ops := [], rendered := [],
    exit := Exit.returned }

/-- The response the client receives: none when the process exited or the
handler panicked, else the written status (200 when the handler never wrote
one), headers and body. -/
def Result.response (r : Result) : Option (Nat × List (Bytes × Bytes) × Bytes) :=
  match r.exit with
  | Exit.returned => some (r.w.status.getD 200, r.w.header, r.w.body)
  | _ => none

/-- Outcome of a call that may end the process. -/
inductive Proc (α : Type) where
  | ret (a : α)
  | exited
deriving DecidableEq, Repr

/-- Transcription of `getDatastore`: `log.Fatalf` on a client error, else the
client is returned together with `err`. -/
def getDatastore (b : Backend) : Proc (Option Bytes) :=
  let err := b.newClientErr
  if err ≠ none then Proc.exited else Proc.ret err

/-- Transcription of `renderTemplate`: execute the template into `w`; on an
error `w.WriteHeader(500)` then `log.Fatalf`.  A nil template makes `Execute`
panic. -/
def renderTemplate (b : Backend) (st : Result) (tmpl : Bytes) (p : Context) : Result :=
  let st1 := { st with rendered := st.rendered ++ [(tmpl, p)] }
  match b.templates tmpl p with
  | RenderOutcome.parseFailed => { st1 with exit := Exit.panicked }
  | RenderOutcome.executed out err =>
    let w1 := if out = [] then st1.w else st1.w.Write out
    if err then { st1 with w := w1.WriteHeader 500, exit := Exit.fatal }
    else { st1 with w := w1 }

/-! ## JSON decoding of the publish body -/

/-- A JSON value.  Strings and object keys are held as the decoder delivers
them, unquoted: sequences of Unicode scalar values (the decoder replaces any
invalid byte by U+FFFD), whose UTF-8 bytes are the Go string. -/
inductive JSON where
  | null
  | bool (b : Bool)
  | number (digits : String)
  | string (s : String)
  | array (items : List JSON)
  | object (members : List (String × JSON))

/-- The request body as the decoder sees it: no well-formed JSON value can be
read from it, or the first JSON value of the stream. -/
inductive Body where
  | invalid
  | value (v : JSON)

/-- The fold of a character onto the lower-case ASCII letter whose fold class
it belongs to: `A`-`Z` onto `a`-`z`, the long s (U+017F) onto `s`, the Kelvin
sign (U+212A) onto `k`; every other character is alone in its class as far as
ASCII letters go and is kept. -/
def foldChar (c : Char) : Char :=
  if 65 ≤ c.toNat ∧ c.toNat ≤ 90 then Char.ofNat (c.toNat + 32)
  else if c.toNat = 0x17F then Char.ofNat 115
  else if c.toNat = 0x212A then Char.ofNat 107
  else c

/-- An object key names the struct field tagged `name` (lower-case ASCII):
exactly, or under Unicode simple case folding. -/
def keyMatches (name key : String) : Bool :=
  key.data == name.data || key.data.map foldChar == name.data

/-- Decoding one object member into `msg`: a string sets the matching field,
`null` leaves it, any other value is a type error; unknown keys are skipped.
The flag records that a type error occurred. -/
def decodeMember (acc : Publish × Bool) (m : String × JSON) : Publish × Bool :=
  let msg := acc.1
  let set : Option (Bytes → Publish) :=
    if keyMatches "type" m.1 then some (fun v => { msg with Type_ := v })
    else if keyMatches "source" m.1 then some (fun v => { msg with Source := v })
    else if keyMatches "schema" m.1 then some (fun v => { msg with Schema := v })
    else none
  match set with
  | none => acc
  | some f =>
    match m.2 with
    | JSON.string s => (f (bytes s), acc.2)
    | JSON.null => acc
    | _ => (msg, true)

/-- `json.NewDecoder(r.Body).Decode(&msg)` with `msg := Publish{}`: `none` is a
non-nil error. -/
def decode (body : Body) : Option Publish :=
  let zero : Publish := { Type_ := [], Source := [], Schema := [] }
  match body with
  | Body.invalid => none
  | Body.value JSON.null => some zero
  | Body.value (JSON.object members) =>
    let r := members.foldl decodeMember (zero, false)
    if r.2 then none else some r.1
  | Body.value _ => none

/-! ## The handlers -/

/-- The entity `publishHandler` builds from the decoded message:
`entity := new(EventSchema)` with `CreatedAt`, `Type`, `Source` and `Schema`
assigned; `Public` and `K` keep their zero values. -/
def newEntity (now : Nat) (msg : Publish) : EventSchema :=
  { CreatedAt := now, Type_ := msg.Type_, Source := msg.Source,
    Schema := msg.Schema, Public := false, K := none }

/-- Transcription of `publishHandler`. -/
def publishHandler (b : Backend) (body : Body) : Result :=
  let st := Result.start b
  match decode body with
  | none =>
    { st with w := (st.w.WriteHeader 400).Write (bytes "Unable to parse message") }
  | some msg =>
    let st1 := { st with ops := st.ops ++ [StoreOp.newClient] }
    match getDatastore b with
    | Proc.exited => { st1 with exit := Exit.fatal }
    | Proc.ret err =>
      if err = none then
        let entity := newEntity b.now msg
        let st2 := { st1 with ops := st1.ops ++ [StoreOp.put entity] }
        if putError b entity ≠ none then { st2 with exit := Exit.fatal }
        else
          { st2 with entities := putEntity (save b.allocID entity) st2.entities,
                     ops := st2.ops ++ [StoreOp.close] }
      else
        { st1 with w := (st1.w.WriteHeader 500).Write (bytes "Unable to connect to database") }

/-- The body `fmt.Sprintf("Schema not found for type: %s", ceType)`. -/
def notFoundBody (ceType : Bytes) : Bytes := bytes "Schema not found for type: " ++ ceType

/-- Transcription of `getSchemaHandler`; `ty` is `mux.Vars(r)["type"]`. -/
def getSchemaHandler (b : Backend) (ty : Bytes) : Result :=
  let ceType := removeDotJson ty
  let st := { Result.start b with ops := [StoreOp.newClient] }
  match getDatastore b with
  | Proc.exited => { st with exit := Exit.fatal }
  | Proc.ret err =>
    if err = none then
      let q := lookupQuery ceType
      let st1 := { st with ops := st.ops ++ [StoreOp.getAll q] }
      if queryError b q = none then
        let schemas := (runQuery q b.entities).map load
        match schemas with
        | [] =>
          { st1 with w := (st1.w.WriteHeader 404).Write (notFoundBody ceType),
                     ops := st1.ops ++ [StoreOp.close] }
        | s :: _ =>
          let r := renderTemplate b st1 (bytes "get") [(bytes "schema", Value.schema s)]
          if r.exit = Exit.fatal then r else { r with ops := r.ops ++ [StoreOp.close] }
      else { st1 with exit := Exit.fatal }
    else
      { st with exit := Exit.fatal }

/-- Transcription of `indexHandler`. -/
def indexHandler (b : Backend) : Result :=
  let st := { Result.start b with ops := [StoreOp.newClient] }
  match getDatastore b with
  | Proc.exited => { st with exit := Exit.fatal }
  | Proc.ret err =>
    if err = none then
      let q := indexQuery
      let st1 := { st with ops := st.ops ++ [StoreOp.getAll q] }
      if queryError b q = none then
        let schemas := (runQuery q b.entities).map load
        let pubSchemas := schemas.filter (fun s => s.Public)
        let r := renderTemplate b st1 (bytes "index") [(bytes "schemas", Value.schemas pubSchemas)]
        if r.exit = Exit.fatal then r else { r with ops := r.ops ++ [StoreOp.close] }
      else { st1 with exit := Exit.fatal }
    else
      { st with exit := Exit.fatal }

/-- Transcription of `downloadSchemaHandler`; `ty` is `mux.Vars(r)["type"]`. -/
def downloadSchemaHandler (b : Backend) (ty : Bytes) : Result :=
  let ceType := removeDotJson ty
  let st := { Result.start b with ops := [StoreOp.newClient] }
  match getDatastore b with
  | Proc.exited => { st with exit := Exit.fatal }
  | Proc.ret err =>
    if err = none then
      let q := lookupQuery ceType
      let st1 := { st with ops := st.ops ++ [StoreOp.getAll q] }
      if queryError b q = none then
        let schemas := (runQuery q b.entities).map load
        match schemas with
        | [] =>
          { st1 with w := (st1.w.WriteHeader 404).Write (notFoundBody ceType),
                     ops := st1.ops ++ [StoreOp.close] }
        | s :: _ =>
          { st1 with
              w := (st1.w.HeaderAdd (bytes "Content-Type") (bytes "application/json")).Write s.Schema,
              ops := st1.ops ++ [StoreOp.close] }
      else { st1 with exit := Exit.fatal }
    else
      { st with exit := Exit.fatal }

/-! ## Specification vocabulary for the publish payload -/

/-- The body parses into the three required string fields: it is a JSON object
with string members `type`, `source` and `schema`. -/
def ParsesIntoRequiredFields (body : Body) : Prop :=
  ∃ members, body = Body.value (JSON.object members) ∧
    ∃ t s c, ("type", JSON.string t) ∈ members ∧
      ("source", JSON.string s) ∈ members ∧
      ("schema", JSON.string c) ∈ members

/-- The member is a type error for `Publish`: its key names one of the fields
`type`, `source`, `schema` and its value is neither a string nor `null`. -/
def typeError (m : String × JSON) : Bool :=
  (keyMatches "type" m.1 || keyMatches "source" m.1 || keyMatches "schema" m.1) &&
    (match m.2 with
     | JSON.string _ => false
     | JSON.null => false
     | _ => true)

/-- The bodies that do not decode into `Publish`: no well-formed JSON value, a
value that is neither an object nor `null`, or an object with a member that is
a type error. -/
def Rejected : Body → Bool
  | Body.invalid => true
  | Body.value JSON.null => false
  | Body.value (JSON.object members) => members.any typeError
  | Body.value _ => true

/-- The publish body with members `type`, `source`, `schema` in this order. -/
def publishBody (t s c : String) : Body :=
  Body.value (JSON.object
    [("type", JSON.string t), ("source", JSON.string s), ("schema", JSON.string c)])

/-! ## Sample stores and requests -/

/-- A backend whose service calls all succeed, holding `ents`; the next key is
`nextID` and every template renders to the empty page. -/
def reachable (ents : List Entity) (nextID : Nat)
    (h : ∀ e ∈ ents, indexable e.cetype = true) : Backend :=
  { newClientErr := none, getAllErr := none, putErr := none, allocID := nextID, now := 1000,
    entities := ents, templates := fun _ _ => RenderOutcome.executed [] false, stored := h }

/-- A record of type `ty` from source `src` with schema text `sch`. -/
def record (key : Nat) (ty src sch : String) (pub : Bool) : Entity :=
  { key := key, createdat := 0, cetype := bytes ty, cesource := bytes src,
    schema := bytes sch, public := pub }

/-- The schema text of the end-to-end scenario. -/
def xSchema : String := "\x7b\"x\":1\x7d"

/-- The store of the end-to-end scenario after its publish. -/
def orderStore : Backend :=
  reachable [record 5 "order.created" "svc-a" xSchema false] 6 (by decide)

/-- A store holding one record of type `a`. -/
def storeA : Backend := reachable [record 1 "a" "svc-a" xSchema false] 2 (by decide)

/-- A store that already holds a public record of type `order.created`. -/
def busyStore : Backend :=
  reachable [record 1 "order.created" "svc-old" "old" true] 9 (by decide)

/-- The store of the index scenario: `zeta`, `alpha`, `mid` public and one
private record. -/
def zooStore : Backend :=
  reachable [record 1 "zeta" "s" "z" true, record 2 "alpha" "s" "a" true,
    record 3 "hidden" "s" "h" false, record 4 "mid" "s" "m" true] 5 (by decide)

/-- The empty store. -/
def emptyStore : Backend := reachable [] 1 (by decide)

/-- A backend whose `datastore.NewClient` fails. -/
def unreachableStore : Backend :=
  { reachable [record 5 "order.created" "svc-a" xSchema false] 6 (by decide) with
    newClientErr := some (bytes "connection refused") }

/-- A backend whose client connects but whose `GetAll` fails. -/
def queryFails : Backend :=
  { reachable [record 5 "order.created" "svc-a" xSchema false] 6 (by decide) with
    getAllErr := some (bytes "deadline exceeded") }

/-- A backend whose client connects but whose `Put` fails. -/
def putFails : Backend :=
  { emptyStore with putErr := some (bytes "deadline exceeded") }

/-! ## Lemmas on the scan -/

theorem matchAt_iff (s sep : Bytes) (i : Nat) :
    matchAt s sep i = true ↔ OccursAt sep s i := by
  unfold matchAt OccursAt
  rw [Bool.and_eq_true, decide_eq_true_eq, beq_iff_eq]
  constructor
  · rintro ⟨hb, h⟩
    refine ⟨s.take i, (s.drop i).drop sep.length, ?_, ?_⟩
    · conv_lhs => rw [← List.take_append_drop i s]
      rw [List.append_assoc]
      congr 1
      conv_lhs => rw [← List.take_append_drop sep.length (s.drop i)]
      rw [h]
    · rw [List.length_take]
      omega
  · rintro ⟨pre, post, rfl, rfl⟩
    simp

theorem occursAt_bound {sep s : Bytes} {i : Nat} (h : OccursAt sep s i) :
    i + sep.length ≤ s.length := by
  obtain ⟨pre, post, rfl, rfl⟩ := h
  simp only [List.length_append]
  omega

theorem lastIndexFrom_none (s sep : Bytes) (n : Nat)
    (h : ∀ j, j ≤ n → ¬ OccursAt sep s j) : lastIndexFrom s sep n = -1 := by
  induction n with
  | zero =>
    have h0 : matchAt s sep 0 = false := by
      rw [Bool.eq_false_iff]
      intro hm
      exact h 0 (Nat.le_refl 0) ((matchAt_iff s sep 0).1 hm)
    simp [lastIndexFrom, h0]
  | succ n ih =>
    have h0 : matchAt s sep (n + 1) = false := by
      rw [Bool.eq_false_iff]
      intro hm
      exact h (n + 1) (Nat.le_refl _) ((matchAt_iff s sep (n + 1)).1 hm)
    simp only [lastIndexFrom, h0]
    exact ih (fun j hj => h j (Nat.le_succ_of_le hj))

theorem lastIndexFrom_last (s sep : Bytes) (n i : Nat) (hin : i ≤ n)
    (hocc : OccursAt sep s i) (hmax : ∀ j, j ≤ n → OccursAt sep s j → j ≤ i) :
    lastIndexFrom s sep n = (i : Int) := by
  induction n with
  | zero =>
    have hi : i = 0 := Nat.le_zero.1 hin
    subst hi
    have h0 : matchAt s sep 0 = true := (matchAt_iff s sep 0).2 hocc
    simp [lastIndexFrom, h0]
  | succ n ih =>
    by_cases hm : matchAt s sep (n + 1) = true
    · have hle : n + 1 ≤ i := hmax (n + 1) (Nat.le_refl _) ((matchAt_iff s sep (n + 1)).1 hm)
      have hi : i = n + 1 := Nat.le_antisymm hin hle
      subst hi
      simp [lastIndexFrom, hm]
    · have hne : i ≠ n + 1 := by
        intro hi
        subst hi
        exact hm ((matchAt_iff s sep (n + 1)).2 hocc)
      have hin2 : i ≤ n := by omega
      have hmf : matchAt s sep (n + 1) = false := by simpa using hm
      simp only [lastIndexFrom, hmf]
      exact ih hin2 (fun j hj => hmax j (Nat.le_succ_of_le hj))

/-- `LastIndex` returns the start of the last occurrence. -/
theorem LastIndex_last (s sep : Bytes) (i : Nat) (hsep : sep.length ≠ 0)
    (h : LastOccursAt sep s i) : LastIndex s sep = (i : Int) := by
  have hb := occursAt_bound h.1
  unfold LastIndex
  rw [if_neg hsep, if_neg (by omega)]
  exact lastIndexFrom_last s sep _ i (by omega) h.1 (fun j _ hj => h.2 j hj)

/-- `LastIndex` returns `-1` when there is no occurrence. -/
theorem LastIndex_none (s sep : Bytes) (hsep : sep.length ≠ 0)
    (h : ∀ j, ¬ OccursAt sep s j) : LastIndex s sep = -1 := by
  unfold LastIndex
  rw [if_neg hsep]
  split
  · rfl
  · exact lastIndexFrom_none s sep _ (fun j _ => h j)

theorem exists_occursAt_iff (sep s : Bytes) : (∃ i, OccursAt sep s i) ↔ sep <:+: s := by
  constructor
  · rintro ⟨_, pre, post, h, _⟩
    exact ⟨pre, post, h.symm⟩
  · rintro ⟨pre, post, h⟩
    exact ⟨pre.length, pre, post, h.symm, rfl⟩

/-- A checkable criterion for the last occurrence: a match at `i` and no match
at any later candidate. -/
theorem lastOccursAt_of_scan (s sep : Bytes) (i : Nat) (h1 : matchAt s sep i = true)
    (h2 : ∀ j, j < s.length + 1 → matchAt s sep j = true → j ≤ i) :
    LastOccursAt sep s i := by
  refine ⟨(matchAt_iff s sep i).1 h1, fun j hj => ?_⟩
  have hb := occursAt_bound hj
  exact h2 j (by omega) ((matchAt_iff s sep j).2 hj)

theorem removeDotJson_of_last (s : Bytes) (idx : Nat) (h : LastOccursAt dotJson s idx)
    (hpos : 0 < idx) : removeDotJson s = s.take idx := by
  have hL := LastIndex_last s dotJson idx (by decide) h
  unfold removeDotJson
  simp only [hL]
  rw [if_pos (by omega)]
  simp

theorem removeDotJson_of_last_zero (s : Bytes) (h : LastOccursAt dotJson s 0) :
    removeDotJson s = s := by
  have hL := LastIndex_last s dotJson 0 (by decide) h
  unfold removeDotJson
  simp [hL]

theorem removeDotJson_of_none (s : Bytes) (h : ∀ j, ¬ OccursAt dotJson s j) :
    removeDotJson s = s := by
  have hL := LastIndex_none s dotJson (by decide) h
  unfold removeDotJson
  simp [hL]

theorem lastOccursAt_append (t : Bytes) : LastOccursAt dotJson (t ++ dotJson) t.length := by
  refine ⟨⟨t, [], by simp, rfl⟩, fun j hj => ?_⟩
  have hb := occursAt_bound hj
  simp only [List.length_append] at hb
  omega

theorem removeDotJson_append (t : Bytes) (ht : t ≠ []) : removeDotJson (t ++ dotJson) = t := by
  have hpos : 0 < t.length := List.length_pos.2 ht
  rw [removeDotJson_of_last (t ++ dotJson) t.length (lastOccursAt_append t) hpos]
  simp

/-! ## Normalization: the claims on `removeDotJson` -/

/-- C1: `removeDotJson` follows the last-index rule.  When the last occurrence
of `.json` in `s` starts at an index `idx > 0` the result is the first `idx`
bytes of `s`; when `.json` does not occur, or its last occurrence starts at
index 0, the result is `s`. -/
theorem removeDotJson_last_index_rule (s : Bytes) :
    (∀ idx, LastOccursAt dotJson s idx → 0 < idx → removeDotJson s = s.take idx) ∧
    ((¬ ∃ i, OccursAt dotJson s i) → removeDotJson s = s) ∧
    (LastOccursAt dotJson s 0 → removeDotJson s = s) :=
  ⟨fun idx h hpos => removeDotJson_of_last s idx h hpos,
   fun h => removeDotJson_of_none s (fun j hj => h ⟨j, hj⟩),
   fun h => removeDotJson_of_last_zero s h⟩

/-- The last-index rule at `"x.json.json.gz"` (last occurrence at 6), at
`"plain"` (no occurrence) and at `".jsonx"` (last occurrence at 0). -/
theorem removeDotJson_last_index_rule_witness :
    removeDotJson (bytes "x.json.json.gz") = bytes "x.json" ∧
    removeDotJson (bytes "plain") = bytes "plain" ∧
    removeDotJson (bytes ".jsonx") = bytes ".jsonx" :=
  ⟨(removeDotJson_last_index_rule (bytes "x.json.json.gz")).1 6
      (lastOccursAt_of_scan _ _ 6 (by decide) (by decide)) (by decide),
   (removeDotJson_last_index_rule (bytes "plain")).2.1
      (fun h => absurd ((exists_occursAt_iff _ _).1 h) (by decide)),
   (removeDotJson_last_index_rule (bytes ".jsonx")).2.2
      (lastOccursAt_of_scan _ _ 0 (by decide) (by decide))⟩

/-- C3: on a string with no occurrence of `.json`, normalization is the identity. -/
theorem removeDotJson_id_of_no_dotJson (s : Bytes) (h : ¬ dotJson <:+: s) :
    removeDotJson s = s :=
  removeDotJson_of_none s (fun j hj => h ((exists_occursAt_iff dotJson s).1 ⟨j, hj⟩))

/-- Normalization leaves `"user-created"` alone, as it holds no `.json`. -/
theorem removeDotJson_id_of_no_dotJson_witness :
    ¬ dotJson <:+: bytes "user-created" ∧
    removeDotJson (bytes "user-created") = bytes "user-created" :=
  ⟨by decide, removeDotJson_id_of_no_dotJson (bytes "user-created") (by decide)⟩

/-- C4: the boundary values of the spec: `"user-created.json"` goes to
`"user-created"`, `"a.jsonb"` to `"a"`, and `".json"` stays `".json"`. -/
theorem removeDotJson_boundary_values :
    removeDotJson (bytes "user-created.json") = bytes "user-created" ∧
    removeDotJson (bytes "a.jsonb") = bytes "a" ∧
    removeDotJson (bytes ".json") = bytes ".json" := by
  decide

/-! ## Lemmas on the Datastore queries -/

theorem mem_sortByKey (ents : List Entity) (e : Entity) :
    e ∈ ents.insertionSort keyLe ↔ e ∈ ents :=
  (List.perm_insertionSort keyLe ents).mem_iff

theorem runQuery_lookup (v : Bytes) (ents : List Entity) :
    runQuery (lookupQuery v) ents =
      ((ents.insertionSort keyLe).filter (fun e => e.cetype == v)).take 1 := by
  simp [runQuery, lookupQuery]

theorem runQuery_lookup_none (v : Bytes) (ents : List Entity)
    (h : ∀ e ∈ ents, e.cetype ≠ v) : runQuery (lookupQuery v) ents = [] := by
  rw [runQuery_lookup]
  have hf : (ents.insertionSort keyLe).filter (fun e => e.cetype == v) = [] := by
    rw [List.filter_eq_nil_iff]
    intro e he
    have := h e ((mem_sortByKey ents e).1 he)
    simpa using this
  rw [hf]
  rfl

theorem runQuery_lookup_some (v : Bytes) (ents : List Entity)
    (h : ∃ e ∈ ents, e.cetype = v) :
    ∃ e, e ∈ ents ∧ e.cetype = v ∧ runQuery (lookupQuery v) ents = [e] := by
  rw [runQuery_lookup]
  obtain ⟨e0, he0, hv0⟩ := h
  have hmem : e0 ∈ (ents.insertionSort keyLe).filter (fun e => e.cetype == v) := by
    rw [List.mem_filter]
    exact ⟨(mem_sortByKey ents e0).2 he0, by simpa using hv0⟩
  cases hl : (ents.insertionSort keyLe).filter (fun e => e.cetype == v) with
  | nil => rw [hl] at hmem; cases hmem
  | cons e rest =>
    have he : e ∈ (ents.insertionSort keyLe).filter (fun e => e.cetype == v) := by
      rw [hl]; exact List.mem_cons_self e rest
    rw [List.mem_filter] at he
    exact ⟨e, (mem_sortByKey ents e).1 he.1, by simpa using he.2, by simp⟩

theorem queryError_lookup (b : Backend) (v : Bytes) (hv : indexable v = true) :
    queryError b (lookupQuery v) = b.getAllErr := by
  simp [queryError, lookupQuery, hv]

theorem queryError_index (b : Backend) : queryError b indexQuery = b.getAllErr := rfl

/-! ## Lookup handlers -/

/-- C7: when the store is reachable and holds a record whose type is the
normalized requested type, `downloadSchemaHandler` answers 200 with the header
`Content-Type: application/json` and a body that is exactly the `Schema` of the
record the lookup returned. -/
theorem downloadSchemaHandler_found (b : Backend) (ty : Bytes)
    (hconn : b.newClientErr = none) (hquery : b.getAllErr = none)
    (hex : ∃ e ∈ b.entities, e.cetype = removeDotJson ty) :
    ∃ e, e ∈ b.entities ∧ e.cetype = removeDotJson ty ∧
      runQuery (lookupQuery (removeDotJson ty)) b.entities = [e] ∧
      (downloadSchemaHandler b ty).response =
        some (200, [(bytes "Content-Type", bytes "application/json")], (load e).Schema) ∧
      (downloadSchemaHandler b ty).rendered = [] ∧
      (downloadSchemaHandler b ty).entities = b.entities := by
  obtain ⟨e, he, hty, hq⟩ := runQuery_lookup_some (removeDotJson ty) b.entities hex
  have hv : indexable (removeDotJson ty) = true := hty ▸ b.stored e he
  have hqe := queryError_lookup b (removeDotJson ty) hv
  refine ⟨e, he, hty, hq, ?_, ?_, ?_⟩ <;>
    simp [downloadSchemaHandler, getDatastore, hconn, hquery, hqe, hq, Result.response,
      Result.start, ResponseWriter.fresh, ResponseWriter.Write, ResponseWriter.WriteHeader,
      ResponseWriter.HeaderAdd]

/-- C8, amended: when the store is reachable, the normalized requested type is
a value the Datastore client accepts as a filter (valid UTF-8 of at most 1500
bytes) and no record has that type, both lookup handlers answer 404 with the
body `Schema not found for type: ` followed by the normalized type, set no
header, render no template and leave the store alone. -/
theorem lookup_not_found (b : Backend) (ty : Bytes)
    (hconn : b.newClientErr = none) (hquery : b.getAllErr = none)
    (hvalid : indexable (removeDotJson ty) = true)
    (hno : ∀ e ∈ b.entities, e.cetype ≠ removeDotJson ty) :
    ((downloadSchemaHandler b ty).response =
        some (404, [], bytes "Schema not found for type: " ++ removeDotJson ty) ∧
      (downloadSchemaHandler b ty).rendered = [] ∧
      (downloadSchemaHandler b ty).entities = b.entities) ∧
    ((getSchemaHandler b ty).response =
        some (404, [], bytes "Schema not found for type: " ++ removeDotJson ty) ∧
      (getSchemaHandler b ty).rendered = [] ∧
      (getSchemaHandler b ty).entities = b.entities) := by
  have hq := runQuery_lookup_none (removeDotJson ty) b.entities hno
  have hqe := queryError_lookup b (removeDotJson ty) hvalid
  refine ⟨⟨?_, ?_, ?_⟩, ⟨?_, ?_, ?_⟩⟩ <;>
    simp [downloadSchemaHandler, getSchemaHandler, getDatastore, hconn, hquery, hqe, hq,
      Result.response, Result.start, ResponseWriter.fresh, ResponseWriter.Write,
      ResponseWriter.WriteHeader, notFoundBody]

/-- C8, as stated, fails at the requested type made of the single byte `0xFF`
(`GET /download/%FF`): the store is reachable and holds no such record, but the
Datastore client refuses the filter value, `GetAll` returns an error and both
handlers end in `log.Fatalf`; no 404 is answered. -/
theorem lookup_not_found_counterexample :
    (downloadSchemaHandler orderStore [255]).exit = Exit.fatal ∧
    (downloadSchemaHandler orderStore [255]).response = none ∧
    (getSchemaHandler orderStore [255]).exit = Exit.fatal ∧
    (getSchemaHandler orderStore [255]).response = none ∧
    ¬ (∀ (b : Backend) (ty : Bytes), b.newClientErr = none → b.getAllErr = none →
        (∀ e ∈ b.entities, e.cetype ≠ removeDotJson ty) →
        (downloadSchemaHandler b ty).response =
          some (404, [], bytes "Schema not found for type: " ++ removeDotJson ty) ∧
        (getSchemaHandler b ty).response =
          some (404, [], bytes "Schema not found for type: " ++ removeDotJson ty)) := by
  refine ⟨by decide, by decide, by decide, by decide, fun h => ?_⟩
  have h1 := (h orderStore [255] rfl rfl (by decide)).1
  revert h1
  decide

/-- The witness of C7: the end-to-end download of `order.created.json`. -/
theorem downloadSchemaHandler_found_witness :
    ∃ e, e ∈ orderStore.entities ∧ e.cetype = removeDotJson (bytes "order.created.json") ∧
      runQuery (lookupQuery (removeDotJson (bytes "order.created.json"))) orderStore.entities
        = [e] ∧
      (downloadSchemaHandler orderStore (bytes "order.created.json")).response =
        some (200, [(bytes "Content-Type", bytes "application/json")], (load e).Schema) ∧
      (downloadSchemaHandler orderStore (bytes "order.created.json")).rendered = [] ∧
      (downloadSchemaHandler orderStore (bytes "order.created.json")).entities
        = orderStore.entities :=
  downloadSchemaHandler_found orderStore (bytes "order.created.json") rfl rfl
    ⟨record 5 "order.created" "svc-a" xSchema false, by decide, by decide⟩

/-- The witness of C8: the lookup of `unknown.created.json` echoes the
normalized type `unknown.created`, not the raw path segment. -/
theorem lookup_not_found_witness :
    (((downloadSchemaHandler orderStore (bytes "unknown.created.json")).response =
        some (404, [],
          bytes "Schema not found for type: " ++ removeDotJson (bytes "unknown.created.json")) ∧
      (downloadSchemaHandler orderStore (bytes "unknown.created.json")).rendered = [] ∧
      (downloadSchemaHandler orderStore (bytes "unknown.created.json")).entities
        = orderStore.entities) ∧
    ((getSchemaHandler orderStore (bytes "unknown.created.json")).response =
        some (404, [],
          bytes "Schema not found for type: " ++ removeDotJson (bytes "unknown.created.json")) ∧
      (getSchemaHandler orderStore (bytes "unknown.created.json")).rendered = [] ∧
      (getSchemaHandler orderStore (bytes "unknown.created.json")).entities
        = orderStore.entities)) ∧
    bytes "Schema not found for type: " ++ removeDotJson (bytes "unknown.created.json")
      = bytes "Schema not found for type: unknown.created" :=
  ⟨lookup_not_found orderStore (bytes "unknown.created.json") rfl rfl (by decide) (by decide),
   by decide⟩

/-- C2, as stated, fails at `t = "a.jsonb"`: `/download/a.jsonb.json` is looked
up under `a.jsonb` and answers 404, while `/download/a.jsonb` is looked up
under `a` and answers 200. -/
theorem download_suffix_same_result_counterexample :
    (downloadSchemaHandler storeA (bytes "a.jsonb" ++ dotJson)).response =
        some (404, [], bytes "Schema not found for type: a.jsonb") ∧
    (downloadSchemaHandler storeA (bytes "a.jsonb")).response =
        some (200, [(bytes "Content-Type", bytes "application/json")], bytes xSchema) ∧
    ¬ (∀ t : Bytes, t ≠ [] →
        removeDotJson (t ++ dotJson) = t ∧
        ∀ b : Backend, downloadSchemaHandler b (t ++ dotJson) = downloadSchemaHandler b t) := by
  refine ⟨by decide, by decide, fun h => ?_⟩
  have heq := (h (bytes "a.jsonb") (by decide)).2 storeA
  have hs := congrArg (fun r => r.w.status) heq
  revert hs
  decide

/-- C2, amended: for every non-empty `t`, `removeDotJson (t ++ ".json") = t`;
and when normalization leaves `t` itself unchanged, the requests
`/download/{t}.json` and `/download/{t}` are looked up under the same type and
give the same result. -/
theorem download_suffix_same_result (t : Bytes) (ht : t ≠ []) :
    removeDotJson (t ++ dotJson) = t ∧
    (removeDotJson t = t →
      lookupQuery (removeDotJson (t ++ dotJson)) = lookupQuery (removeDotJson t) ∧
      ∀ b : Backend, downloadSchemaHandler b (t ++ dotJson) = downloadSchemaHandler b t) := by
  have h := removeDotJson_append t ht
  refine ⟨h, fun hfix => ⟨by rw [h, hfix], fun b => ?_⟩⟩
  unfold downloadSchemaHandler
  rw [h, hfix]

/-- The witness of C2 at `t = "order.created"`. -/
theorem download_suffix_same_result_witness :
    removeDotJson (bytes "order.created" ++ dotJson) = bytes "order.created" ∧
    lookupQuery (removeDotJson (bytes "order.created" ++ dotJson))
      = lookupQuery (removeDotJson (bytes "order.created")) ∧
    ∀ b : Backend, downloadSchemaHandler b (bytes "order.created" ++ dotJson)
      = downloadSchemaHandler b (bytes "order.created") :=
  ⟨(download_suffix_same_result (bytes "order.created") (by decide)).1,
   (download_suffix_same_result (bytes "order.created") (by decide)).2 (by decide)⟩

/-! ## Lemmas on the order of types -/

theorem bytesLe_total (a b : Bytes) : bytesLe a b = true ∨ bytesLe b a = true := by
  induction a generalizing b with
  | nil => left; simp [bytesLe]
  | cons x xs ih =>
    cases b with
    | nil => right; simp [bytesLe]
    | cons y ys =>
      simp only [bytesLe]
      by_cases h1 : x.toNat < y.toNat
      · left; simp [h1]
      · by_cases h2 : y.toNat < x.toNat
        · right; simp [h2]
        · simp only [h1, h2, if_false]
          exact ih ys

theorem bytesLe_trans (a b c : Bytes) (hab : bytesLe a b = true) (hbc : bytesLe b c = true) :
    bytesLe a c = true := by
  induction a generalizing b c with
  | nil => simp [bytesLe]
  | cons x xs ih =>
    cases b with
    | nil => simp [bytesLe] at hab
    | cons y ys =>
      cases c with
      | nil => simp [bytesLe] at hbc
      | cons z zs =>
        simp only [bytesLe] at hab hbc ⊢
        by_cases h1 : x.toNat < y.toNat
        · by_cases h2 : y.toNat < z.toNat
          · have : x.toNat < z.toNat := by omega
            simp [this]
          · by_cases h3 : z.toNat < y.toNat
            · simp [h2, h3] at hbc
            · have : x.toNat < z.toNat := by omega
              simp [this]
        · by_cases h1b : y.toNat < x.toNat
          · simp [h1, h1b] at hab
          · simp only [h1, h1b, if_false] at hab
            by_cases h2 : y.toNat < z.toNat
            · have : x.toNat < z.toNat := by omega
              simp [this]
            · by_cases h3 : z.toNat < y.toNat
              · simp [h2, h3] at hbc
              · simp only [h2, h3, if_false] at hbc
                have e1 : ¬ x.toNat < z.toNat := by omega
                have e2 : ¬ z.toNat < x.toNat := by omega
                simp only [e1, e2, if_false]
                exact ih ys zs hab hbc

theorem runQuery_index (ents : List Entity) :
    runQuery indexQuery ents = (ents.insertionSort keyLe).insertionSort typeLe := by
  simp [runQuery, indexQuery]

theorem runQuery_index_perm (ents : List Entity) : (runQuery indexQuery ents).Perm ents := by
  rw [runQuery_index]
  exact (List.perm_insertionSort typeLe _).trans (List.perm_insertionSort keyLe ents)

theorem runQuery_index_sorted (ents : List Entity) :
    (runQuery indexQuery ents).Pairwise typeLe := by
  rw [runQuery_index]
  haveI : IsTotal Entity typeLe := ⟨fun a b => bytesLe_total a.cetype b.cetype⟩
  haveI : IsTrans Entity typeLe :=
    ⟨fun a b c hab hbc => bytesLe_trans a.cetype b.cetype c.cetype hab hbc⟩
  exact List.sorted_insertionSort typeLe _

theorem renderTemplate_rendered (b : Backend) (st : Result) (tmpl : Bytes) (p : Context) :
    (renderTemplate b st tmpl p).rendered = st.rendered ++ [(tmpl, p)] := by
  unfold renderTemplate
  cases b.templates tmpl p with
  | parseFailed => rfl
  | executed out err => cases err <;> rfl

/-! ## The index -/

/-- C6: on a reachable store, `indexHandler` hands the template `index`, under
the key `schemas`, exactly the public records (a permutation of them, so each
with its multiplicity, and no private one), ordered by type ascending; with no
public record the sequence is empty; and whenever the template executes
without error the page is answered with status 200. -/
theorem indexHandler_public_ordered (b : Backend)
    (hconn : b.newClientErr = none) (hquery : b.getAllErr = none) :
    ∃ pubs : List EventSchema,
      (indexHandler b).rendered = [(bytes "index", [(bytes "schemas", Value.schemas pubs)])] ∧
      pubs.Perm ((b.entities.filter (fun e => e.public)).map load) ∧
      (∀ s ∈ pubs, s.Public = true) ∧
      pubs.Pairwise (fun x y => bytesLe x.Type_ y.Type_ = true) ∧
      ((∀ e ∈ b.entities, e.public = false) → pubs = []) ∧
      (∀ out, b.templates (bytes "index") [(bytes "schemas", Value.schemas pubs)]
          = RenderOutcome.executed out false →
        (indexHandler b).response = some (200, [], out)) := by
  refine ⟨((runQuery indexQuery b.entities).map load).filter (fun s => s.Public),
    ?_, ?_, ?_, ?_, ?_, ?_⟩
  · simp only [indexHandler, getDatastore, hconn, queryError_index, hquery]
    simp only [ne_eq, not_true_eq_false, if_false, if_true]
    split <;> simp [renderTemplate_rendered, Result.start]
  · rw [List.filter_map]
    exact ((runQuery_index_perm b.entities).filter _).map load
  · intro s hs
    exact (List.mem_filter.1 hs).2
  · exact ((runQuery_index_sorted b.entities).map load (fun _ _ h => h)).filter _
  · intro hnone
    rw [List.filter_eq_nil_iff]
    intro s hs
    obtain ⟨e, he, rfl⟩ := List.mem_map.1 hs
    have hmem : e ∈ b.entities := (runQuery_index_perm b.entities).mem_iff.1 he
    simp [load, hnone e hmem]
  · intro out hout
    simp only [indexHandler, getDatastore, hconn, queryError_index, hquery]
    simp only [ne_eq, not_true_eq_false, if_false, if_true]
    simp only [renderTemplate, hout]
    by_cases ho : out = []
    · simp [ho, Result.response, Result.start, ResponseWriter.fresh]
    · simp [ho, Result.response, Result.start, ResponseWriter.fresh, ResponseWriter.Write,
        ResponseWriter.WriteHeader]

/-- The witness of C6: the store with `zeta`, `alpha`, `mid` public and one
private record lists `alpha`, `mid`, `zeta`. -/
theorem indexHandler_public_ordered_witness :
    (∃ pubs : List EventSchema,
      (indexHandler zooStore).rendered
        = [(bytes "index", [(bytes "schemas", Value.schemas pubs)])] ∧
      pubs.Perm ((zooStore.entities.filter (fun e => e.public)).map load) ∧
      (∀ s ∈ pubs, s.Public = true) ∧
      pubs.Pairwise (fun x y => bytesLe x.Type_ y.Type_ = true) ∧
      ((∀ e ∈ zooStore.entities, e.public = false) → pubs = []) ∧
      (∀ out, zooStore.templates (bytes "index") [(bytes "schemas", Value.schemas pubs)]
          = RenderOutcome.executed out false →
        (indexHandler zooStore).response = some (200, [], out))) ∧
    (indexHandler zooStore).rendered =
      [(bytes "index", [(bytes "schemas", Value.schemas
        [load (record 2 "alpha" "s" "a" true), load (record 4 "mid" "s" "m" true),
         load (record 1 "zeta" "s" "z" true)])])] ∧
    (indexHandler emptyStore).rendered
      = [(bytes "index", [(bytes "schemas", Value.schemas [])])] ∧
    (indexHandler emptyStore).response = some (200, [], []) :=
  ⟨indexHandler_public_ordered zooStore rfl rfl, by decide, by decide, by decide⟩

/-! ## Publishing -/

theorem publishHandler_ok (b : Backend) (body : Body) (msg : Publish)
    (hdec : decode body = some msg) (hconn : b.newClientErr = none)
    (hput : putError b (newEntity b.now msg) = none) :
    publishHandler b body =
      { w := ResponseWriter.fresh,
        entities := putEntity
          { key := b.allocID, createdat := b.now, cetype := msg.Type_, cesource := msg.Source,
            schema := msg.Schema, public := false } b.entities,
        ops := [StoreOp.newClient, StoreOp.put (newEntity b.now msg), StoreOp.close],
        rendered := [], exit := Exit.returned } := by
  simp [publishHandler, hdec, getDatastore, hconn, hput, Result.start]
  simp [save, newEntity]

theorem decode_publishBody (t s c : String) :
    decode (publishBody t s c)
      = some { Type_ := bytes t, Source := bytes s, Schema := bytes c } := by
  have h1 : keyMatches "type" "type" = true := by decide
  have h2 : keyMatches "type" "source" = false := by decide
  have h3 : keyMatches "source" "source" = true := by decide
  have h4 : keyMatches "type" "schema" = false := by decide
  have h5 : keyMatches "source" "schema" = false := by decide
  have h6 : keyMatches "schema" "schema" = true := by decide
  simp [decode, publishBody, decodeMember, h1, h2, h3, h4, h5, h6]

theorem decodeMember_flag (acc : Publish × Bool) (m : String × JSON) :
    (decodeMember acc m).2 = (acc.2 || typeError m) := by
  obtain ⟨k, v⟩ := m
  unfold decodeMember typeError
  by_cases h1 : keyMatches "type" k = true
  · cases v <;> simp [h1]
  · by_cases h2 : keyMatches "source" k = true
    · cases v <;> simp [h1, h2]
    · by_cases h3 : keyMatches "schema" k = true
      · cases v <;> simp [h1, h2, h3]
      · simp [h1, h2, h3]

theorem foldl_decodeMember_flag (ms : List (String × JSON)) (acc : Publish × Bool) :
    (ms.foldl decodeMember acc).2 = (acc.2 || ms.any typeError) := by
  induction ms generalizing acc with
  | nil => simp
  | cons m rest ih =>
    rw [List.foldl_cons, ih, decodeMember_flag, List.any_cons, Bool.or_assoc]

theorem decode_eq_none_iff (body : Body) : decode body = none ↔ Rejected body = true := by
  cases body with
  | invalid => simp [decode, Rejected]
  | value v =>
    cases v with
    | object ms =>
      have h := foldl_decodeMember_flag ms ({ Type_ := [], Source := [], Schema := [] }, false)
      simp only [Bool.false_or] at h
      simp [decode, Rejected, h]
    | null => simp [decode, Rejected]
    | bool _ => simp [decode, Rejected]
    | number _ => simp [decode, Rejected]
    | string _ => simp [decode, Rejected]
    | array _ => simp [decode, Rejected]

/-- C5, as stated, fails on a store that already holds a record of the type:
after publishing `order.created` from `svc-a` into `busyStore`, the lookup
returns the older record, from `svc-old` and public. -/
theorem publish_then_lookup_counterexample :
    (runQuery (lookupQuery (bytes "order.created"))
        (publishHandler busyStore (publishBody "order.created" "svc-a" xSchema)).entities).map
        load
      = [load (record 1 "order.created" "svc-old" "old" true)] ∧
    ¬ (∀ (b : Backend) (body : Body) (msg : Publish), decode body = some msg →
        b.newClientErr = none → putError b (newEntity b.now msg) = none →
        ∃ s, (runQuery (lookupQuery msg.Type_) (publishHandler b body).entities).map load = [s] ∧
          s.Source = msg.Source ∧ s.Schema = msg.Schema ∧ s.Public = false) := by
  refine ⟨by decide, fun h => ?_⟩
  obtain ⟨s, hs, _, _, hpub⟩ := h busyStore
    (publishBody "order.created" "svc-a" xSchema)
    { Type_ := bytes "order.created", Source := bytes "svc-a", Schema := bytes xSchema }
    (decode_publishBody _ _ _) rfl (by decide)
  have hq : (runQuery (lookupQuery (bytes "order.created"))
        (publishHandler busyStore (publishBody "order.created" "svc-a" xSchema)).entities).map
        load
      = [load (record 1 "order.created" "svc-old" "old" true)] := by decide
  rw [hq] at hs
  injection hs with hs1 _
  rw [← hs1] at hpub
  revert hpub
  decide

/-- C5, amended: after `publishHandler` succeeds, the find-one-by-type query on
the payload's type returns one record of that type; when the store held no
record of that type before the publish, its `Source` and `Schema` are the
payload's and its `Public` flag is false. -/
theorem publish_then_lookup (b : Backend) (body : Body) (msg : Publish)
    (hdec : decode body = some msg) (hconn : b.newClientErr = none)
    (hput : putError b (newEntity b.now msg) = none) :
    (publishHandler b body).response = some (200, [], []) ∧
    ∃ s, (runQuery (lookupQuery msg.Type_) (publishHandler b body).entities).map load = [s] ∧
      s.Type_ = msg.Type_ ∧
      ((∀ e ∈ b.entities, e.cetype ≠ msg.Type_) →
        s.Source = msg.Source ∧ s.Schema = msg.Schema ∧ s.Public = false) := by
  rw [publishHandler_ok b body msg hdec hconn hput]
  refine ⟨by simp [Result.response, ResponseWriter.fresh], ?_⟩
  simp only
  obtain ⟨e, he, hty, hq⟩ := runQuery_lookup_some msg.Type_
    (putEntity
      { key := b.allocID, createdat := b.now, cetype := msg.Type_,
        cesource := msg.Source, schema := msg.Schema, public := false } b.entities)
    ⟨{ key := b.allocID, createdat := b.now, cetype := msg.Type_,
       cesource := msg.Source, schema := msg.Schema, public := false },
     by simp [putEntity], rfl⟩
  refine ⟨load e, by rw [hq]; rfl, by simp [load, hty], fun hno => ?_⟩
  simp only [putEntity, List.mem_append, List.mem_filter, List.mem_singleton] at he
  rcases he with ⟨hmem, _⟩ | rfl
  · exact absurd hty (hno e hmem)
  · simp [load]

/-- The witness of C5: the end-to-end publish of `order.created` into an empty
store. -/
theorem publish_then_lookup_witness :
    (publishHandler emptyStore (publishBody "order.created" "svc-a" xSchema)).response
        = some (200, [], []) ∧
    ∃ s, (runQuery (lookupQuery (bytes "order.created"))
        (publishHandler emptyStore (publishBody "order.created" "svc-a" xSchema)).entities).map
          load = [s] ∧
      s.Type_ = bytes "order.created" ∧
      ((∀ e ∈ emptyStore.entities, e.cetype ≠ bytes "order.created") →
        s.Source = bytes "svc-a" ∧ s.Schema = bytes xSchema ∧ s.Public = false) :=
  publish_then_lookup emptyStore (publishBody "order.created" "svc-a" xSchema)
    { Type_ := bytes "order.created", Source := bytes "svc-a", Schema := bytes xSchema }
    (decode_publishBody _ _ _) rfl (by decide)

/-- C10, as stated, fails at the body `{}`: it does not parse into the three
required fields, yet `publishHandler` answers 200 after writing a record whose
type, source and schema are empty. -/
theorem publish_missing_fields_counterexample :
    ¬ ParsesIntoRequiredFields (Body.value (JSON.object [])) ∧
    (publishHandler emptyStore (Body.value (JSON.object []))).response
      = some (200, [], []) ∧
    (publishHandler emptyStore (Body.value (JSON.object []))).entities
      = [{ key := 1, createdat := 1000, cetype := [], cesource := [], schema := [],
           public := false }] ∧
    ¬ (∀ (b : Backend) (body : Body), ¬ ParsesIntoRequiredFields body →
        (∃ hdr txt, (publishHandler b body).response = some (400, hdr, txt)) ∧
        (publishHandler b body).ops = [] ∧
        (publishHandler b body).entities = b.entities) := by
  have hno : ¬ ParsesIntoRequiredFields (Body.value (JSON.object [])) := by
    rintro ⟨members, hm, t, s, c, h1, _, _⟩
    injection hm with hm
    injection hm with hm
    subst hm
    cases h1
  refine ⟨hno, by decide, by decide, fun h => ?_⟩
  have hops := (h emptyStore (Body.value (JSON.object [])) hno).2.1
  revert hops
  decide

/-- C10, amended: `publishHandler` rejects a body exactly when decoding it into
`Publish` returns an error, that is when no well-formed JSON value can be read,
when the value is neither an object nor `null`, or when a member whose key
matches `type`, `source` or `schema` (under case folding) holds a value that is
neither a string nor `null`.  It then answers 400 with the text
`Unable to parse message`, makes no store call and leaves the store unchanged.
Every other body is accepted, a missing field staying empty, and when the
store write succeeds the one record created has the decoded payload as `Type`,
`Source` and `Schema`.  A body with the three string members decodes to them. -/
theorem publishHandler_decode_gate (b : Backend) (body : Body) :
    (decode body = none ↔ Rejected body = true) ∧
    (decode body = none →
      (publishHandler b body).response = some (400, [], bytes "Unable to parse message") ∧
      (publishHandler b body).ops = [] ∧
      (publishHandler b body).entities = b.entities) ∧
    (∀ msg, decode body = some msg → b.newClientErr = none →
      putError b (newEntity b.now msg) = none →
      (publishHandler b body).response = some (200, [], []) ∧
      ∃ e, (publishHandler b body).entities = putEntity e b.entities ∧
        e.key = b.allocID ∧ e.cetype = msg.Type_ ∧ e.cesource = msg.Source ∧
        e.schema = msg.Schema ∧ e.public = false) ∧
    (∀ t s c, decode (publishBody t s c)
      = some { Type_ := bytes t, Source := bytes s, Schema := bytes c }) := by
  refine ⟨decode_eq_none_iff body, fun hdec => ?_, fun msg hdec hconn hput => ?_,
    decode_publishBody⟩
  · refine ⟨?_, ?_, ?_⟩ <;>
      simp [publishHandler, hdec, Result.response, Result.start, ResponseWriter.fresh,
        ResponseWriter.Write, ResponseWriter.WriteHeader]
  · rw [publishHandler_ok b body msg hdec hconn hput]
    exact ⟨by simp [Result.response, ResponseWriter.fresh], _, rfl, rfl, rfl, rfl, rfl, rfl⟩

/-- The witness of C10: the body whose key `source`, written with a long s,
holds a number is answered 400 without a store call, and the end-to-end payload
is stored as sent. -/
theorem publishHandler_decode_gate_witness :
    ((publishHandler orderStore
          (Body.value (JSON.object [("ſource", JSON.number "5")]))).response
        = some (400, [], bytes "Unable to parse message") ∧
      (publishHandler orderStore
          (Body.value (JSON.object [("ſource", JSON.number "5")]))).ops = [] ∧
      (publishHandler orderStore
          (Body.value (JSON.object [("ſource", JSON.number "5")]))).entities
        = orderStore.entities) ∧
    ((publishHandler emptyStore (publishBody "order.created" "svc-a" xSchema)).response
        = some (200, [], []) ∧
      ∃ e, (publishHandler emptyStore (publishBody "order.created" "svc-a" xSchema)).entities
          = putEntity e emptyStore.entities ∧
        e.key = emptyStore.allocID ∧ e.cetype = bytes "order.created" ∧
        e.cesource = bytes "svc-a" ∧ e.schema = bytes xSchema ∧ e.public = false) :=
  ⟨(publishHandler_decode_gate orderStore
      (Body.value (JSON.object [("ſource", JSON.number "5")]))).2.1 (by decide),
   (publishHandler_decode_gate emptyStore
      (publishBody "order.created" "svc-a" xSchema)).2.2.1
      { Type_ := bytes "order.created", Source := bytes "svc-a", Schema := bytes xSchema }
      (decode_publishBody _ _ _) rfl (by decide)⟩

/-! ## Backend failures -/

/-- C9 fails on the code: when `datastore.NewClient` fails every handler ends
in `log.Fatalf`, so the process exits and no response is sent; the same happens
when `GetAll` fails in the three reading handlers and when `Put` fails in
`publishHandler`.  No 500 is answered on any of these paths. -/
theorem backend_failure_exits_process :
    ((publishHandler unreachableStore (publishBody "order.created" "svc-a" xSchema)).exit
        = Exit.fatal ∧
      (getSchemaHandler unreachableStore (bytes "order.created")).exit = Exit.fatal ∧
      (downloadSchemaHandler unreachableStore (bytes "order.created")).exit = Exit.fatal ∧
      (indexHandler unreachableStore).exit = Exit.fatal) ∧
    ((publishHandler unreachableStore
        (publishBody "order.created" "svc-a" xSchema)).response = none ∧
      (getSchemaHandler unreachableStore (bytes "order.created")).response = none ∧
      (downloadSchemaHandler unreachableStore (bytes "order.created")).response = none ∧
      (indexHandler unreachableStore).response = none) ∧
    ((getSchemaHandler queryFails (bytes "order.created")).exit = Exit.fatal ∧
      (downloadSchemaHandler queryFails (bytes "order.created")).exit = Exit.fatal ∧
      (indexHandler queryFails).exit = Exit.fatal ∧
      (publishHandler putFails (publishBody "order.created" "svc-a" xSchema)).exit
        = Exit.fatal) := by
  refine ⟨⟨?_, ?_, ?_, ?_⟩, ⟨?_, ?_, ?_, ?_⟩, ⟨?_, ?_, ?_, ?_⟩⟩ <;> decide

end SchemaRegistry
